import Mathlib

/-!
# Verification of the telegram assistant core (shallow embedding)

This development embeds the core of the `telegram_assistant` repository
(the files `assistant_handler.py` and `conversation_manager.py`) into Lean
and settles the specification claims about it.

Conventions of the embedding:
* Python strings are `String` / `List Char`; each `re.sub` call of the source
  is embedded as a dedicated left-to-right, non-overlapping scanner whose
  single-position matcher reproduces the greedy/backtracking semantics of the
  concrete pattern (documented at each matcher).
* Python dicts are association lists with unique keys (`alook` / `aset` /
  `adel`); dict truthiness/`in` tests are modelled exactly (`None` and the
  empty string are falsy).
* Provider calls, the delivery callback (`send_to_telegram`) and `asyncio`
  sleeps are modelled as an event trace; whether a particular external call
  raises an exception is decided by an oracle structure, so theorems that
  quantify over the oracle cover every combination of provider/delivery
  failures.  `time.time()` is an oracle clock `Nat → ℚ`, one index per call
  whose value flows into the behaviour of the code.
* The image-turn poll loop (`while run_status not in [...]`) is given fuel;
  exhausted fuel models the call not returning (the loop never exits), in
  which case no postcondition about the returned state is claimed.
-/

set_option maxHeartbeats 4000000
set_option maxRecDepth 4096

namespace TgAssistant

/-! ## Python-like character and string helpers (on `List Char`) -/

/-- Python `\s` on the ASCII range: space, tab, newline, carriage return,
vertical tab, form feed. -/
def isWs (c : Char) : Bool :=
  c == ' ' || c == '\t' || c == '\n' || c == '\r' ||
  c == Char.ofNat 11 || c == Char.ofNat 12

/-- Length of the maximal prefix of `s` whose characters satisfy `p`. -/
def runLen (p : Char → Bool) (s : List Char) : Nat :=
  (s.takeWhile p).length

/-- Predicate `lstarts pat s` : `s` starts with `pat`. -/
def lstarts : List Char → List Char → Bool
  | [], _ => true
  | _ :: _, [] => false
  | p :: ps, c :: cs => p == c && lstarts ps cs

/-- Predicate `lcontains pat s` : `pat` occurs as a contiguous substring of `s`. -/
def lcontains (pat : List Char) : List Char → Bool
  | [] => lstarts pat []
  | c :: cs => lstarts pat (c :: cs) || lcontains pat cs

/-- Python `str.strip()`: remove leading and trailing whitespace. -/
def pyStrip (s : List Char) : List Char :=
  ((s.dropWhile isWs).reverse.dropWhile isWs).reverse

/-- One step of a left-to-right, non-overlapping `re.sub` scan.
`m s` returns `some (rep, k)` when the pattern matches at the start of `s`,
consuming `k ≥ 1` characters and producing replacement `rep`.  The fuel is
initialised to the string length; since every match consumes at least one
character this is always sufficient. -/
def subF (m : List Char → Option (List Char × Nat)) : Nat → List Char → List Char
  | _, [] => []
  | 0, s => s
  | fuel + 1, c :: cs =>
    match m (c :: cs) with
    | some (rep, k) => rep ++ subF m fuel (List.drop k (c :: cs))
    | none => c :: subF m fuel cs

/-- Python `re.sub` with the given single-position matcher. -/
def pySub (m : List Char → Option (List Char × Nat)) (s : List Char) : List Char :=
  subF m s.length s

/-- Python `str.replace` (all non-overlapping occurrences, left to right). -/
def replF (pat rep : List Char) : Nat → List Char → List Char
  | _, [] => []
  | 0, s => s
  | fuel + 1, c :: cs =>
    if lstarts pat (c :: cs) && decide (0 < pat.length) then
      rep ++ replF pat rep fuel (List.drop pat.length (c :: cs))
    else
      c :: replF pat rep fuel cs

/-- Python `str.replace pat rep`. -/
def pyReplace (pat rep s : List Char) : List Char :=
  replF pat rep s.length s

/-! ## The individual regex substitutions of the two text reformatters

Each matcher below embeds one `re.sub(pattern, repl, text)` of the source at a
single scan position; `pySub` supplies the global left-to-right scan. -/

/-- Pattern `' +'` → `' '` (`process_markdown`, line 42): a maximal run of
spaces collapses to a single space. -/
def mSpaces : List Char → Option (List Char × Nat)
  | c :: cs => if c == ' ' then some ([' '], 1 + runLen (· == ' ') cs) else none
  | [] => none

/-- Pattern `\s+:` → `:` (both reformatters): a maximal whitespace run
directly followed by a colon is deleted.  (Backtracking note: a shortened
`\s+` is followed by another whitespace character, never by `:`, so only the
maximal run can match.) -/
def mWsColon (s : List Char) : Option (List Char × Nat) :=
  let n := runLen isWs s
  if 1 ≤ n then
    match s.drop n with
    | ':' :: _ => some ([':'], n + 1)
    | _ => none
  else none

/-- Pattern `###\s+` → `''` (`prepare_text_for_html`, line 104). -/
def mHashWs (s : List Char) : Option (List Char × Nat) :=
  if lstarts ['#', '#', '#'] s then
    let n := runLen isWs (s.drop 3)
    if 1 ≤ n then some ([], 3 + n) else none
  else none

/-- Pattern `\*\*([^*]+)\*\*` with replacement `left ++ group ++ right`
(`process_markdown` line 58 with `*`/`*`, `prepare_text_for_html` line 110
with `<b>`/`</b>`): the group cannot contain `*`, so the closing marker must
sit at the first `*` after the opening one, and it must be doubled. -/
def mBold (left right : List Char) (s : List Char) : Option (List Char × Nat) :=
  if lstarts ['*', '*'] s then
    let t := s.drop 2
    let x := t.takeWhile (· != '*')
    if 1 ≤ x.length && lstarts ['*', '*'] (t.drop x.length) then
      some (left ++ x ++ right, 2 + x.length + 2)
    else none
  else none

/-- Shared core of the patterns containing `\*\*\s+([^*]+)\s+\*\*`: given the
text `t` that follows an opening `**`, return the captured group and the
number of characters of `t` consumed up to and including the closing `**`.

Everything between the markers is `[^*]`, so it is the maximal `*`-free run
`T` of `t`, and the closing `**` must follow it directly.  Inside `T` the
regex engine resolves `\s+ ([^*]+) \s+` as: the leading `\s+` takes the
maximal whitespace prefix `p` of `T` (shrinking it cannot help unless the
group would otherwise be empty), the group takes as much as possible, and the
trailing `\s+` is left the last character of `T`, which must be whitespace.
When `T` is pure whitespace the leading `\s+` backtracks to `|T| - 2`
characters, capturing a single whitespace character. -/
def spacedBoldCore (t : List Char) : Option (List Char × Nat) :=
  let T := t.takeWhile (· != '*')
  if lstarts ['*', '*'] (t.drop T.length) then
    let p := runLen isWs T
    if p == 0 then none
    else if p == T.length then
      if 3 ≤ T.length then some ((T.drop (T.length - 2)).take 1, T.length + 2)
      else none
    else
      let C := T.drop p
      if 2 ≤ C.length && isWs (C.getLastD ' ') then
        some (C.dropLast, T.length + 2)
      else none
  else none

/-- Pattern `\*\*\s+([^*]+)\s+\*\*` → `left ++ group ++ right`
(`prepare_text_for_html`, line 108, with `<b>`/`</b>`). -/
def mSpacedBold (left right : List Char) (s : List Char) :
    Option (List Char × Nat) :=
  if lstarts ['*', '*'] s then
    match spacedBoldCore (s.drop 2) with
    | some (x, k) => some (left ++ x ++ right, 2 + k)
    | none => none
  else none

/-- Pattern `(\d+)\.\s+\*\*\s+([^*]+)\s+\*\*\s*:` → `\1. *\2*:`
(`process_markdown`, line 48).  The digit run, the whitespace run before the
opening `**` and the whitespace run before the final `:` are forced maximal
(shrinking them puts a digit where `.` is required, whitespace where `*` is
required, and whitespace where `:` is required, respectively). -/
def mNumBoldColon (s : List Char) : Option (List Char × Nat) :=
  let d := s.takeWhile (·.isDigit)
  if 1 ≤ d.length then
    match s.drop d.length with
    | '.' :: rest =>
      let w := runLen isWs rest
      if 1 ≤ w && lstarts ['*', '*'] (rest.drop w) then
        match spacedBoldCore (rest.drop (w + 2)) with
        | some (x, k) =>
          let rest2 := rest.drop (w + 2 + k)
          let v := runLen isWs rest2
          match rest2.drop v with
          | ':' :: _ =>
            some (d ++ ['.', ' ', '*'] ++ x ++ ['*', ':'],
                  d.length + 1 + w + 2 + k + v + 1)
          | _ => none
        | none => none
      else none
    | _ => none
  else none

/-- Backtracking search for `\s+([^#\n]+)` after a `###`: the whitespace run
shrinks from `w` down to `1` until the group (`[^#\n]+`, maximal) is
non-empty; whitespace characters other than `\n` handed back by `\s+` become
part of the group. -/
def hashHeadFind (rest : List Char) : Nat → Option (List Char × Nat)
  | 0 => none
  | w + 1 =>
    let x := (rest.drop (w + 1)).takeWhile (fun c => !(c == '#' || c == '\n'))
    if 1 ≤ x.length then some (x, w + 1) else hashHeadFind rest w

/-- Pattern `###\s+([^#\n]+)` → `*\1*` (`process_markdown`, line 51). -/
def mHashHead (s : List Char) : Option (List Char × Nat) :=
  if lstarts ['#', '#', '#'] s then
    let rest := s.drop 3
    let wmax := runLen isWs rest
    if 1 ≤ wmax then
      match hashHeadFind rest wmax with
      | some (x, w) => some (['*'] ++ x ++ ['*'], 3 + w + x.length)
      | none => none
    else none
  else none

/-- Backtracking search for `\s+([^:]+):` after `N.`: the whitespace run
shrinks from `w` down to `1` until the maximal colon-free group starting
after it is non-empty and directly followed by `:`. -/
def numColonFind (rest : List Char) : Nat → Option (List Char × Nat)
  | 0 => none
  | w + 1 =>
    let x := (rest.drop (w + 1)).takeWhile (· != ':')
    if 1 ≤ x.length then
      match rest.drop (w + 1 + x.length) with
      | ':' :: _ => some (x, w + 1)
      | _ => numColonFind rest w
    else numColonFind rest w

/-- Pattern `(\d+)\.\s+([^:]+):` → `\1. *\2*:` (`process_markdown`,
line 54). -/
def mNumColon (s : List Char) : Option (List Char × Nat) :=
  let d := s.takeWhile (·.isDigit)
  if 1 ≤ d.length then
    match s.drop d.length with
    | '.' :: rest =>
      let wmax := runLen isWs rest
      if 1 ≤ wmax then
        match numColonFind rest wmax with
        | some (x, w) =>
          some (d ++ ['.', ' ', '*'] ++ x ++ ['*', ':'],
                d.length + 1 + w + x.length + 1)
        | none => none
      else none
    | _ => none
  else none

/-- Pattern `•\s+` → `'• '` (`prepare_text_for_html`, lines 117 and 125). -/
def mBulletWs (s : List Char) : Option (List Char × Nat) :=
  match s with
  | c :: cs =>
    if c == '•' then
      let n := runLen isWs cs
      if 1 ≤ n then some (['•', ' '], 1 + n) else none
    else none
  | [] => none

/-- Pattern `\n\s*-\s+` → `'\n• '` (`prepare_text_for_html`, line 119):
after the newline, `\s*` is forced maximal (a shortened run puts whitespace
where `-` is required). -/
def mDashBullet (s : List Char) : Option (List Char × Nat) :=
  match s with
  | '\n' :: cs =>
    let w := runLen isWs cs
    match cs.drop w with
    | '-' :: cs2 =>
      let n := runLen isWs cs2
      if 1 ≤ n then some (['\n', '•', ' '], 1 + w + 1 + n) else none
    | _ => none
  | _ => none

/-- Pattern `(\d+)\.\s+<b>([^<]+)</b>:` → `\1. <b>\2</b>:`
(`prepare_text_for_html`, line 122). -/
def mNumTagColon (s : List Char) : Option (List Char × Nat) :=
  let d := s.takeWhile (·.isDigit)
  if 1 ≤ d.length then
    match s.drop d.length with
    | '.' :: rest =>
      let w := runLen isWs rest
      if 1 ≤ w && lstarts ['<', 'b', '>'] (rest.drop w) then
        let t := rest.drop (w + 3)
        let x := t.takeWhile (· != '<')
        if 1 ≤ x.length && lstarts ['<', '/', 'b', '>', ':'] (t.drop x.length) then
          some (d ++ ['.', ' ', '<', 'b', '>'] ++ x ++ ['<', '/', 'b', '>', ':'],
                d.length + 1 + w + 3 + x.length + 5)
        else none
      else none
    | _ => none
  else none

/-! ## The two text reformatters -/

/-- Embedding of `process_markdown` (`assistant_handler.py`, lines 36-63): the
markdown-dialect reformatter, as the composition of its eight rewrites in
source order. -/
def pmL (s : List Char) : List Char :=
  let s1 := pySub mSpaces s
  let s2 := pySub mWsColon s1
  let s3 := pySub mNumBoldColon s2
  let s4 := pySub mHashHead s3
  let s5 := pySub mNumColon s4
  let s6 := pySub (mBold ['*'] ['*']) s5
  let s7 := pyReplace ['*', '*'] ['*'] s6
  pyReplace ['*', ' ', '*'] ['*'] s7

/-- The function `process_markdown` on `String`. -/
def process_markdown (s : String) : String :=
  ⟨pmL s.data⟩

/-- Embedding of `ConversationManager.prepare_text_for_html`
(`conversation_manager.py`, lines 98-131): the tag-based (HTML) reformatter,
as the composition of its twelve rewrites in source order. -/
def pthL (s : List Char) : List Char :=
  let s1 := pySub mHashWs s
  let s2 := pySub (mSpacedBold "<b>".data "</b>".data) s1
  let s3 := pySub (mBold "<b>".data "</b>".data) s2
  let s4 := pySub mWsColon s3
  let s5 := pySub mBulletWs s4
  let s6 := pySub mDashBullet s5
  let s7 := pySub mNumTagColon s6
  let s8 := pySub mBulletWs s7
  let s9 := pyReplace "&lt;b&gt;".data "<b>".data s8
  let s10 := pyReplace "&lt;/b&gt;".data "</b>".data s9
  let s11 := pyReplace "&lt;i&gt;".data "<i>".data s10
  pyReplace "&lt;/i&gt;".data "</i>".data s11

/-- The function `prepare_text_for_html` on `String`. -/
def prepare_text_for_html (s : String) : String :=
  ⟨pthL s.data⟩

/-! ## Python dicts as association lists

The dicts of the source (`threads`, `user_data`, `_thread_locks`,
`_in_progress_runs`, per-bot caches) always have unique keys, so we model
them as association lists where `aset` overwrites in place and `adel`
removes the key. -/

/-- Python `d.get(k)` / `d[k]` lookup. -/
def alook {κ α : Type} [DecidableEq κ] (k : κ) : List (κ × α) → Option α
  | [] => none
  | (k', v) :: rest => if k' = k then some v else alook k rest

/-- Python `d[k] = v`: overwrite in place, or append a new entry. -/
def aset {κ α : Type} [DecidableEq κ] (k : κ) (v : α) :
    List (κ × α) → List (κ × α)
  | [] => [(k, v)]
  | (k', v') :: rest =>
    if k' = k then (k', v) :: rest else (k', v') :: aset k v rest

/-- Python `del d[k]` (no-op when absent, matching `if k in d: del d[k]`). -/
def adel {κ α : Type} [DecidableEq κ] (k : κ) :
    List (κ × α) → List (κ × α)
  | [] => []
  | (k', v') :: rest =>
    if k' = k then adel k rest else (k', v') :: adel k rest

/-- Python truthiness of an optional string: `None` and `""` are falsy. -/
def truthyS : Option String → Bool
  | none => false
  | some s => s ≠ ""

/-! ## `ConversationManager` (`conversation_manager.py`)

State relevant to the claims: the `threads` dict, the per-bot handler thread
caches (`bot.assistant_handler.threads`, written explicitly by
`set_thread_id` and `end_conversation`), `user_data` (only the `name` entry
is ever written) and the set of `group_id`s for which `_thread_locks` holds a
lock object. -/

structure CMState where
  threads : List (Int × String)
  botThreads : List (String × List (Int × String))
  userData : List (Int × String)
  threadLocks : List Int
  deriving DecidableEq

/-- Embedding of `get_thread_id` (lines 37-39). -/
def get_thread_id (st : CMState) (g : Int) : Option String :=
  alook g st.threads

/-- The state effect of `get_thread_lock` (lines 41-45): create the lock
object for `g` on first access. -/
def addLock (g : Int) (st : CMState) : CMState :=
  if g ∈ st.threadLocks then st
  else { st with threadLocks := st.threadLocks ++ [g] }

/-- Propagate a new thread id to every registered bot's handler cache
(`set_thread_id`, lines 66-67 and 80-81). -/
def fanOut (g : Int) (t : String) (bots : List (String × List (Int × String))) :
    List (String × List (Int × String)) :=
  bots.map (fun p => (p.1, aset g t p.2))

/-- Embedding of `set_thread_id(group_id, thread_id)` (lines 47-90), i.e. the body of its
critical section; the `asyncio.Lock` acquired at line 54 serialises
concurrent invocations for the same `group_id`, so a set of concurrent calls
is modelled as some sequential order of these bodies.

`hint` is the `thread_id` argument (default `None`); `create` is the oracle
for the provider call `client.beta.threads.create()` at line 74: `none`
means the call raises, `some t` means it returns a thread whose `id` is `t`
(line 75 accepts it only when truthy, i.e. non-empty).

Returns the new state, the returned value, and whether the provider was
contacted. -/
def set_thread_id (st0 : CMState) (g : Int) (hint : Option String)
    (create : Option String) : CMState × Option String × Bool :=
  let st := addLock g st0
  let ex := alook g st.threads
  if truthyS ex then (st, ex, false)
  else
    let createBranch : CMState × Option String × Bool :=
      match create with
      | none => (st, none, true)
      | some t =>
        if t ≠ "" then
          ({ st with threads := aset g t st.threads,
                     botThreads := fanOut g t st.botThreads },
           some t, true)
        else (st, none, true)
    match hint with
    | some h =>
      if h ≠ "" then
        ({ st with threads := aset g h st.threads,
                   botThreads := fanOut g h st.botThreads },
         some h, false)
      else createBranch
    | none => createBranch

/-- Runs `n` sequential executions of the critical section of `set_thread_id` with no
hint (the serialisation order the per-key lock enforces on `n` concurrent
callers).  `creates` is indexed by how many provider calls happened so far;
returns the final state, the `n` return values in order, and the total
number of provider thread-creation calls. -/
def runSetThread (g : Int) (creates : Nat → Option String) :
    Nat → CMState → Nat → CMState × List (Option String) × Nat
  | 0, st, pc => (st, [], pc)
  | n + 1, st, pc =>
    let r := set_thread_id st g none (creates pc)
    let pc' := if r.2.2 then pc + 1 else pc
    let rest := runSetThread g creates n r.1 pc'
    (rest.1, r.2.1 :: rest.2.1, rest.2.2)

/-- Embedding of `end_conversation(group_id)` (lines 308-320): pop the thread for `g` and
delete it from every bot's handler cache; `user_data` and `_thread_locks`
are untouched. -/
def end_conversation (st : CMState) (g : Int) : CMState × Bool :=
  match alook g st.threads with
  | some _ =>
    ({ st with threads := adel g st.threads,
               botThreads := st.botThreads.map (fun p => (p.1, adel g p.2)) },
     true)
  | none => (st, false)

/-! ## `AssistantHandler` (`assistant_handler.py`)

The handler state is its `threads` map, its `message_history` and the
`_in_progress_runs` flags.  Provider calls, invocations of the delivery
callback `send_to_telegram` and `asyncio.sleep`s are recorded as an event
trace; an oracle decides which external calls raise. -/

/-- One `{role, content}` entry of `message_history`. -/
structure Msg where
  role : String
  content : String
  deriving DecidableEq

structure HState where
  threads : List (Int × String)
  messageHistory : List Msg
  inProgressRuns : List (String × Bool)
  deriving DecidableEq

/-- Observable external actions of a turn, in order. -/
inductive Event where
  | providerCall (name : String)
  | send (text : String)
  | sleep (seconds : ℚ)
  deriving DecidableEq

/-- Python `self._in_progress_runs.get(thread_id, False)`. -/
def getFlag (m : List (String × Bool)) (tid : String) : Bool :=
  (alook tid m).getD false

/-- Python `self._in_progress_runs[thread_id] = b`. -/
def setFlag (tid : String) (b : Bool) (st : HState) : HState :=
  { st with inProgressRuns := aset tid b st.inProgressRuns }

/-- The busy notice of lines 88 and 159. -/
def busyNotice : String :=
  "⏳ Estoy procesando una solicitud anterior. Por favor, espera un momento."

/-- Oracle for a text turn: whether `messages.create` (line 97) raises,
whether opening the streaming run (line 109) raises, the sequence of
`text_deltas` the stream yields, and whether the `i`-th invocation of the
delivery callback raises. -/
structure TextOracle where
  createMessageRaises : Bool
  streamOpenRaises : Bool
  deltas : List String
  sendRaises : Nat → Bool

/-- Split at the first `"\n\n"`, like `buffer.split('\n\n', 1)` (only used
under the guard `'\n\n' in buffer`). -/
def splitNN : List Char → List Char × List Char
  | [] => ([], [])
  | c :: cs =>
    if lstarts ['\n', '\n'] (c :: cs) then ([], cs.drop 1)
    else
      let r := splitNN cs
      (c :: r.1, r.2)

/-- The streaming loop of `stream_response` (lines 113-138): accumulate
deltas in `buffer`; on a paragraph boundary flush the stripped accumulated
paragraph to the callback and to the history; after the stream, flush the
stripped remaining buffer.  A raising callback aborts the loop (the
exception is caught at line 140); the history append (lines 129/138) only
happens when the send succeeded.  Returns the final history, the events, the
next send index and whether a send raised. -/
def streamLoop (sendRaises : Nat → Bool) :
    List String → List Char → List Char → Nat → List Msg → List Event →
    List Msg × List Event × Nat × Bool
  | [], buffer, _, si, hist, ev =>
    let fin := pyStrip buffer
    if fin ≠ [] then
      if sendRaises si then (hist, ev ++ [.send ⟨fin⟩], si + 1, true)
      else (hist ++ [⟨"assistant", ⟨fin⟩⟩], ev ++ [.send ⟨fin⟩], si + 1, false)
    else (hist, ev, si, false)
  | d :: ds, buffer, acc, si, hist, ev =>
    let buffer' := buffer ++ d.data
    if lcontains ['\n', '\n'] buffer' then
      let parts := splitNN buffer'
      let processed := pyStrip (acc ++ parts.1)
      if processed ≠ [] then
        if sendRaises si then (hist, ev ++ [.send ⟨processed⟩], si + 1, true)
        else
          streamLoop sendRaises ds parts.2 [] (si + 1)
            (hist ++ [⟨"assistant", ⟨processed⟩⟩]) (ev ++ [.send ⟨processed⟩])
      else streamLoop sendRaises ds parts.2 [] si hist ev
    else streamLoop sendRaises ds buffer' acc si hist ev

/-- Embedding of `AssistantHandler.stream_response` (lines 75-144).  Returns the final
handler state, the event trace, and whether the call raised (only possible
from the busy-notice send, which sits outside the `try`/`finally`; every
later raise is caught at lines 103-106 or 140-141).  The `finally` of lines
142-144 clears the in-progress flag on every path that set it. -/
def streamResponse (st : HState) (g : Int) (message : String) (o : TextOracle) :
    HState × List Event × Bool :=
  match alook g st.threads with
  | none => (st, [], false)
  | some tid =>
    if tid = "" then (st, [], false)
    else if getFlag st.inProgressRuns tid then
      (st, [.send busyNotice], o.sendRaises 0)
    else
      let st1 := setFlag tid true st
      if o.createMessageRaises then
        (setFlag tid false st1, [.providerCall "threads.messages.create"], false)
      else
        let st2 := { st1 with
                     messageHistory := st1.messageHistory ++ [⟨"user", message⟩] }
        let ev0 := [Event.providerCall "threads.messages.create",
                    Event.providerCall "threads.runs.create_and_stream"]
        if o.streamOpenRaises then (setFlag tid false st2, ev0, false)
        else
          let r := streamLoop o.sendRaises o.deltas [] [] 0 st2.messageHistory ev0
          (setFlag tid false { st2 with messageHistory := r.1 }, r.2.1, false)

/-- Embedding of `AssistantHandler.trim_message_history` (lines 351-355).  (Defined by
the source but never invoked by any turn.) -/
def trim_message_history (history : List Msg) : List Msg :=
  if 20 < history.length then history.drop (history.length - 20) else history

/-! ## `AssistantHandler.stream_image_response` (lines 146-349)

The user-visible notices of the image turn. -/

def analyzingNotice : String :=
  "🔍 Estoy analizando la imagen. Esto puede tardar unos momentos..."

def queuedNotice : String :=
  "🔄 Tu solicitud está en cola. Esto puede tardar un momento debido a alta demanda..."

def stillQueuedNotice : String :=
  "⏳ Tu solicitud sigue en cola. A veces el procesamiento de imágenes puede tardar un poco más. Gracias por tu paciencia."

def timeoutNotice : String :=
  "⚠️ El análisis está tomando más tiempo del esperado. Puedo continuar esperando o puedes cancelar e intentarlo nuevamente. ¿Quieres continuar esperando?"

def imageFailNotice : String :=
  "❌ No pude procesar la imagen. Por favor, intenta con otra imagen o consulta sin imagen."

def uploadFailNotice (e : String) : String :=
  "⚠️ No se pudo subir la imagen. Error: " ++ e

def analysisErrorNotice (e : String) : String :=
  "Lo siento, ocurrió un error al analizar la imagen: " ++ e

def noResponseNotice (model : String) : String :=
  "⚠️ El asistente no generó una respuesta para la imagen. Modelo usado: " ++ model

def failedStatusNotice (status model : String) : String :=
  "❌ El análisis falló con estado: " ++ status ++ ". Modelo usado: " ++ model

/-- Oracle for an image turn.  Each `...Raises` field decides whether the
corresponding external call raises; `clock` supplies the successive values of
the `time.time()` calls whose result flows into behaviour (line 270
start-time, line 275 elapsed, lines 283/286 queued timing); `retrieve` gives
the outcome of the `i`-th `runs.retrieve` poll (line 305; `none` = raise);
`assistantMsgs` is the text extracted from `messages.list` for the completed
run (lines 320-331); `errText` is the `str(e)` of raised exceptions as
interpolated into notices. -/
structure ImageOracle where
  sendRaises : Nat → Bool
  assistantRetrieveRaises : Bool
  modelName : String
  textMsgRaises : Bool
  fileUploadRaises : Bool
  fileId : String
  imageMsgRaises : Bool
  altMsgRaises : Bool
  runCreateRaises : Bool
  runInitialStatus : String
  clock : Nat → ℚ
  retrieve : Nat → Option String
  listMsgsRaises : Bool
  assistantMsgs : List String
  errText : String

/-- State of the poll loop of lines 274-313, plus the running send-index,
clock-index, retrieve-index and event trace. -/
structure LoopSt where
  runStatus : String
  maxWait : ℚ
  startTime : ℚ
  queuedMsgSent : Bool
  queuedTimeStart : Option ℚ
  tick : Nat
  retrIdx : Nat
  sendIdx : Nat
  events : List Event
  deriving DecidableEq

/-- The terminal run statuses of line 274. -/
def terminalStatuses : List String := ["completed", "failed", "cancelled", "expired"]

def isTerminal (s : String) : Bool := terminalStatuses.contains s

/-- Record one delivery-callback invocation; the returned flag says whether
it raised. -/
def emitL (o : ImageOracle) (text : String) (ls : LoopSt) : LoopSt × Bool :=
  ({ ls with events := ls.events ++ [.send text], sendIdx := ls.sendIdx + 1 },
   o.sendRaises ls.sendIdx)

/-- Result of one loop iteration: continue with the new state, or a delivery
callback raised (the exception leaves the loop and is caught at line 344). -/
inductive StepRes where
  | cont (ls : LoopSt)
  | raised (ls : LoopSt)
  deriving DecidableEq

/-- Lines 299-313: sleep `min(5, 1 + elapsed/20)`, then poll the run status;
a failing poll is logged and followed by an extra 5-second sleep, leaving the
status unchanged. -/
def stepSleepRetrieve (o : ImageOracle) (elapsed : ℚ) (ls0 : LoopSt) : StepRes :=
  let ls := { ls0 with
              events := ls0.events ++
                [Event.sleep (min 5 (1 + elapsed / 20)),
                 Event.providerCall "threads.runs.retrieve"] }
  match o.retrieve ls.retrIdx with
  | some s => .cont { ls with runStatus := s, retrIdx := ls.retrIdx + 1 }
  | none =>
    .cont { ls with retrIdx := ls.retrIdx + 1,
                    events := ls.events ++ [Event.sleep 5] }

/-- Lines 291-297: if the elapsed time exceeded the current budget, notify
the user and extend the budget by 60 seconds (the loop continues either
way). -/
def stepTimeout (o : ImageOracle) (elapsed : ℚ) (ls : LoopSt) : StepRes :=
  if ls.maxWait < elapsed then
    let r := emitL o timeoutNotice ls
    if r.2 then .raised r.1
    else stepSleepRetrieve o elapsed { r.1 with maxWait := r.1.maxWait + 60 }
  else stepSleepRetrieve o elapsed ls

/-- Lines 285-289 (inside the `queued` branch): a one-time follow-up notice
once more than 30 seconds passed since the queued notice; Python float
truthiness makes a recorded start of exactly `0.0` skip the check. -/
def stepQueuedFollowup (o : ImageOracle) (elapsed : ℚ) (ls : LoopSt) : StepRes :=
  match ls.queuedTimeStart with
  | some qs =>
    if qs ≠ 0 then
      let now := o.clock ls.tick
      let ls1 := { ls with tick := ls.tick + 1 }
      if 30 < now - qs then
        let r := emitL o stillQueuedNotice ls1
        if r.2 then .raised r.1
        else stepTimeout o elapsed { r.1 with queuedTimeStart := none }
      else stepTimeout o elapsed ls1
    else stepTimeout o elapsed ls
  | none => stepTimeout o elapsed ls

/-- One iteration of the poll loop body (lines 275-313), entered with a
non-terminal status. -/
def pollStep (o : ImageOracle) (ls0 : LoopSt) : StepRes :=
  let elapsed := o.clock ls0.tick - ls0.startTime
  let ls1 := { ls0 with tick := ls0.tick + 1 }
  if ls1.runStatus = "queued" then
    if ls1.queuedMsgSent then stepQueuedFollowup o elapsed ls1
    else
      let r := emitL o queuedNotice ls1
      if r.2 then .raised r.1
      else
        stepQueuedFollowup o elapsed
          { r.1 with queuedMsgSent := true,
                     queuedTimeStart := some (o.clock r.1.tick),
                     tick := r.1.tick + 1 }
  else stepTimeout o elapsed ls1

/-- Result of the whole poll loop: exited with a terminal status, aborted by
a raising delivery callback, or still running when the fuel ran out (the
call has not returned). -/
inductive PollRes where
  | finished (ls : LoopSt)
  | raisedL (ls : LoopSt)
  | fuelOut
  deriving DecidableEq

/-- The `while run_status not in ["completed","failed","cancelled","expired"]`
loop (lines 274-313). -/
def pollLoop (o : ImageOracle) : Nat → LoopSt → PollRes
  | 0, ls => if isTerminal ls.runStatus then .finished ls else .fuelOut
  | fuel + 1, ls =>
    if isTerminal ls.runStatus then .finished ls
    else
      match pollStep o ls with
      | .cont ls' => pollLoop o fuel ls'
      | .raised ls' => .raisedL ls'

/-- Running context of the image turn outside the loop: history, events and
send index. -/
structure ICtx where
  hist : List Msg
  ev : List Event
  sendIdx : Nat
  deriving DecidableEq

def isend (o : ImageOracle) (text : String) (c : ICtx) : ICtx × Bool :=
  ({ c with ev := c.ev ++ [.send text], sendIdx := c.sendIdx + 1 },
   o.sendRaises c.sendIdx)

def icall (name : String) (c : ICtx) : ICtx :=
  { c with ev := c.ev ++ [.providerCall name] }

/-- A delivery inside the `try` of line 255: if it raises, the handler at
line 344 sends the analysis-error notice (whose own raise propagates). -/
def sendIn255 (o : ImageOracle) (text : String) (c : ICtx)
    (k : ICtx → Option (ICtx × Bool)) : Option (ICtx × Bool) :=
  let r := isend o text c
  if r.2 then
    let r2 := isend o (analysisErrorNotice o.errText) r.1
    some (r2.1, r2.2)
  else k r.1

/-- Deliver each extracted assistant message and append it to the history
(lines 335-338); a raising delivery is caught at line 344. -/
def sendAssistantMsgs (o : ImageOracle) : List String → ICtx → Option (ICtx × Bool)
  | [], c => some (c, false)
  | m :: ms, c =>
    let r := isend o m c
    if r.2 then
      let r2 := isend o (analysisErrorNotice o.errText) r.1
      some (r2.1, r2.2)
    else
      sendAssistantMsgs o ms
        { r.1 with hist := r.1.hist ++ [⟨"assistant", m⟩] }

/-- Lines 248-346: history entry for the user turn, run creation, the poll
loop, and the handling of the final status.  `none` models the loop not
terminating within the fuel (the call has not returned). -/
def imageRun (o : ImageOracle) (message model : String) (fuel : Nat) (c0 : ICtx) :
    Option (ICtx × Bool) :=
  let c1 := { c0 with
              hist := c0.hist ++
                [⟨"user", message ++ " [IMAGEN adjuntada como archivo: " ++
                          o.fileId ++ "]"⟩] }
  let c := icall "threads.runs.create" c1
  if o.runCreateRaises then
    let r := isend o (analysisErrorNotice o.errText) c
    some (r.1, r.2)
  else
    let start := o.clock 0
    let ls0 : LoopSt :=
      ⟨o.runInitialStatus, 120, start, false, none, 1, 0, c.sendIdx, c.ev⟩
    match pollLoop o fuel ls0 with
    | .fuelOut => none
    | .raisedL ls =>
      let c2 : ICtx := ⟨c.hist, ls.events, ls.sendIdx⟩
      let r := isend o (analysisErrorNotice o.errText) c2
      some (r.1, r.2)
    | .finished ls =>
      let c2 : ICtx := ⟨c.hist, ls.events, ls.sendIdx⟩
      if ls.runStatus = "completed" then
        let c3 := icall "threads.messages.list" c2
        if o.listMsgsRaises then
          let r := isend o (analysisErrorNotice o.errText) c3
          some (r.1, r.2)
        else
          match o.assistantMsgs with
          | [] => sendIn255 o (noResponseNotice model) c3 (fun c4 => some (c4, false))
          | m :: ms => sendAssistantMsgs o (m :: ms) c3
      else
        sendIn255 o (failedStatusNotice ls.runStatus model) c2
          (fun c4 => some (c4, false))

/-- Lines 166-346: the body of the image turn after the in-progress flag was
set.  The boolean of the result is whether the body raised (such exceptions
propagate through the `finally`). -/
def imageBody (o : ImageOracle) (message : String) (fuel : Nat) (c0 : ICtx) :
    Option (ICtx × Bool) :=
  let r0 := isend o analyzingNotice c0
  if r0.2 then some (r0.1, true)
  else
    let c := icall "assistants.retrieve" r0.1
    let model := if o.assistantRetrieveRaises then "desconocido" else o.modelName
    let c := icall "threads.messages.create" c
    if o.textMsgRaises then
      let r := isend o (uploadFailNotice o.errText) c
      some (r.1, r.2)
    else
      let c := icall "files.create" c
      if o.fileUploadRaises then
        let r := isend o (uploadFailNotice o.errText) c
        some (r.1, r.2)
      else
        let c := icall "threads.messages.create" c
        if o.imageMsgRaises then
          let c' := icall "threads.messages.create" c
          if o.altMsgRaises then
            let r := isend o imageFailNotice c'
            some (r.1, r.2)
          else imageRun o message model fuel c'
        else imageRun o message model fuel c

/-- Embedding of `AssistantHandler.stream_image_response` (lines 146-349).  `none` models
the poll loop not terminating within the fuel (the call has not returned);
otherwise the result is the final state, the event trace, and whether the
call raised.  The `finally` of lines 347-349 clears the in-progress flag on
every path that set it. -/
def streamImageResponse (st : HState) (g : Int) (message : String)
    (o : ImageOracle) (fuel : Nat) : Option (HState × List Event × Bool) :=
  match alook g st.threads with
  | none => some (st, [], false)
  | some tid =>
    if tid = "" then some (st, [], false)
    else if getFlag st.inProgressRuns tid then
      some (st, [.send busyNotice], o.sendRaises 0)
    else
      let st1 := setFlag tid true st
      match imageBody o message fuel ⟨st1.messageHistory, [], 0⟩ with
      | none => none
      | some (c, raised) =>
        some (setFlag tid false { st1 with messageHistory := c.hist },
              c.ev, raised)

/-! ## Concrete instances used by witnesses and counterexamples -/

/-- A text-turn oracle where nothing raises and one two-paragraph answer is
streamed. -/
def noFailTextOracle : TextOracle :=
  ⟨false, false, ["hola\n\nmundo"], fun _ => false⟩

/-- A text-turn oracle where nothing raises and the stream yields nothing. -/
def emptyStreamOracle : TextOracle :=
  ⟨false, false, [], fun _ => false⟩

/-- An image-turn oracle where nothing raises, the run starts `queued` and
every poll reports `completed`. -/
def noFailImageOracle : ImageOracle :=
  ⟨fun _ => false, false, "gpt-4o", false, false, "file_1", false, false, false,
   "queued", fun n => (n : ℚ), fun _ => some "completed", false,
   ["análisis listo"], "err"⟩

/-- A handler whose thread `t7` has a run in flight. -/
def busyHandlerState : HState := ⟨[(7, "t7")], [], [("t7", true)]⟩

/-- A handler whose thread `t7` is idle. -/
def idleHandlerState : HState := ⟨[(7, "t7")], [], [("t7", false)]⟩

/-- A handler with no thread recorded for any group. -/
def emptyHandlerState : HState := ⟨[], [], []⟩

/-- A handler whose history already holds 20 entries. -/
def fullHistoryState : HState :=
  ⟨[(1, "thread_1")], List.replicate 20 ⟨"user", "previo"⟩, []⟩

/-- A manager with one registered bot and no conversations. -/
def emptyCMState : CMState := ⟨[], [("bot", [])], [], []⟩

/-- A provider that answers every thread-creation request with the same
fresh id. -/
def firstCreates : Nat → Option String := fun _ => some "thread_abc"

/-- A manager with an active conversation for group 1, two bots, a stored
user name and an existing lock. -/
def boundCMState : CMState :=
  ⟨[(1, "t1")], [("botA", [(1, "t1")]), ("botB", [(1, "t1"), (2, "t2")])],
   [(1, "Ana")], [1]⟩

/-- A manager whose group 1 already maps to `t1`. -/
def c8State : CMState := ⟨[(1, "t1")], [("bot", [(1, "t1")])], [], []⟩

/-- A poll-loop state that already carries a terminal status. -/
def doneLoopState : LoopSt := ⟨"completed", 120, 0, false, none, 1, 0, 0, []⟩

/-! ## Helper lemmas -/

theorem alook_aset_self {κ α : Type} [DecidableEq κ] (k : κ) (v : α)
    (l : List (κ × α)) : alook k (aset k v l) = some v := by
  induction l with
  | nil => simp [aset, alook]
  | cons hd tl ih =>
    by_cases h : hd.1 = k <;> simp [aset, alook, h, ih]

theorem alook_adel_self {κ α : Type} [DecidableEq κ] (k : κ)
    (l : List (κ × α)) : alook k (adel k l) = none := by
  induction l with
  | nil => simp [adel, alook]
  | cons hd tl ih =>
    by_cases h : hd.1 = k <;> simp [adel, alook, h, ih]

theorem getFlag_setFlag_self (tid : String) (b : Bool) (st : HState) :
    getFlag (setFlag tid b st).inProgressRuns tid = b := by
  simp [getFlag, setFlag, alook_aset_self]

theorem addLock_threads (g : Int) (st : CMState) :
    (addLock g st).threads = st.threads := by
  unfold addLock; split <;> rfl

theorem addLock_botThreads (g : Int) (st : CMState) :
    (addLock g st).botThreads = st.botThreads := by
  unfold addLock; split <;> rfl

theorem addLock_userData (g : Int) (st : CMState) :
    (addLock g st).userData = st.userData := by
  unfold addLock; split <;> rfl

theorem addLock_mem (g : Int) (st : CMState) :
    g ∈ (addLock g st).threadLocks := by
  unfold addLock; split
  · assumption
  · simp

theorem addLock_of_mem {g : Int} {st : CMState} (h : g ∈ st.threadLocks) :
    addLock g st = st := by
  unfold addLock; exact if_pos h

theorem set_thread_id_existing (st : CMState) (g : Int) (hint c : Option String)
    (t : String) (hth : alook g st.threads = some t) (hne : t ≠ "")
    (hlock : g ∈ st.threadLocks) :
    set_thread_id st g hint c = (st, some t, false) := by
  unfold set_thread_id
  rw [addLock_of_mem hlock]
  simp [hth, truthyS, hne]

theorem runSetThread_existing (g : Int) (creates : Nat → Option String)
    (t : String) (hne : t ≠ "") :
    ∀ (n pc : Nat) (st : CMState), alook g st.threads = some t →
      g ∈ st.threadLocks →
      runSetThread g creates n st pc = (st, List.replicate n (some t), pc) := by
  intro n
  induction n with
  | zero => intro pc st _ _; rfl
  | succ k ih =>
    intro pc st hth hlock
    unfold runSetThread
    rw [set_thread_id_existing st g none (creates pc) t hth hne hlock]
    simp [ih pc st hth hlock, List.replicate_succ]

theorem pollLoop_finished_terminal (o : ImageOracle) :
    ∀ (fuel : Nat) (ls ls' : LoopSt), pollLoop o fuel ls = .finished ls' →
      isTerminal ls'.runStatus = true := by
  intro fuel
  induction fuel with
  | zero =>
    intro ls ls' h
    unfold pollLoop at h
    split at h
    · next hterm => injection h with h2; subst h2; exact hterm
    · exact absurd h (by simp)
  | succ k ih =>
    intro ls ls' h
    unfold pollLoop at h
    split at h
    · next hterm => injection h with h2; subst h2; exact hterm
    · revert h
      cases pollStep o ls with
      | cont ls2 => intro h; exact ih ls2 ls' h
      | raised ls2 => intro h; exact absurd h (by simp)

theorem stepSleepRetrieve_spec (o : ImageOracle) (e : ℚ) (ls : LoopSt) :
    ∃ ls' tail, stepSleepRetrieve o e ls = .cont ls' ∧
      ls'.events = ls.events ++
        [Event.sleep (min 5 (1 + e / 20)),
         Event.providerCall "threads.runs.retrieve"] ++ tail ∧
      ls'.maxWait = ls.maxWait := by
  simp only [stepSleepRetrieve]
  rcases hr : o.retrieve ls.retrIdx with _ | s
  · refine ⟨_, [Event.sleep 5], rfl, ?_, rfl⟩
    simp
  · refine ⟨_, [], rfl, ?_, rfl⟩
    simp

theorem stepTimeout_spec (o : ImageOracle) (e : ℚ) (ls : LoopSt)
    (hsend : ∀ n, o.sendRaises n = false) :
    ∃ ls' pre tail, stepTimeout o e ls = .cont ls' ∧
      ls'.events = ls.events ++ pre ++
        [Event.sleep (min 5 (1 + e / 20)),
         Event.providerCall "threads.runs.retrieve"] ++ tail ∧
      (ls.maxWait < e → ls'.maxWait = ls.maxWait + 60 ∧
        Event.send timeoutNotice ∈ pre) ∧
      (¬ ls.maxWait < e → ls'.maxWait = ls.maxWait ∧ pre = []) := by
  by_cases hlt : ls.maxWait < e
  · have hbody : stepTimeout o e ls =
        stepSleepRetrieve o e
          { ls with events := ls.events ++ [Event.send timeoutNotice],
                    sendIdx := ls.sendIdx + 1, maxWait := ls.maxWait + 60 } := by
      unfold stepTimeout emitL
      rw [if_pos hlt]
      simp [hsend ls.sendIdx]
    obtain ⟨ls', tail, hstep, hev, hmw⟩ := stepSleepRetrieve_spec o e
      { ls with events := ls.events ++ [Event.send timeoutNotice],
                sendIdx := ls.sendIdx + 1, maxWait := ls.maxWait + 60 }
    refine ⟨ls', [Event.send timeoutNotice], tail, ?_, ?_, ?_, ?_⟩
    · rw [hbody]; exact hstep
    · simp [hev]
    · intro _; exact ⟨hmw, by simp⟩
    · intro hc; exact absurd hlt hc
  · obtain ⟨ls', tail, hstep, hev, hmw⟩ := stepSleepRetrieve_spec o e ls
    refine ⟨ls', [], tail, ?_, ?_, ?_, ?_⟩
    · unfold stepTimeout; rw [if_neg hlt]; exact hstep
    · simp [hev]
    · intro hc; exact absurd hc hlt
    · intro _; exact ⟨hmw, rfl⟩

theorem stepQueuedFollowup_spec (o : ImageOracle) (e : ℚ) (ls : LoopSt)
    (hsend : ∀ n, o.sendRaises n = false) :
    ∃ ls' pre tail, stepQueuedFollowup o e ls = .cont ls' ∧
      ls'.events = ls.events ++ pre ++
        [Event.sleep (min 5 (1 + e / 20)),
         Event.providerCall "threads.runs.retrieve"] ++ tail ∧
      (ls.maxWait < e → ls'.maxWait = ls.maxWait + 60 ∧
        Event.send timeoutNotice ∈ pre) ∧
      (¬ ls.maxWait < e → ls'.maxWait = ls.maxWait) := by
  rcases hq : ls.queuedTimeStart with _ | qs
  · obtain ⟨ls', pre, tail, hstep, hev, h3, h4⟩ := stepTimeout_spec o e ls hsend
    refine ⟨ls', pre, tail, ?_, hev, h3, fun hc => (h4 hc).1⟩
    unfold stepQueuedFollowup
    rw [hq]
    exact hstep
  · by_cases hq0 : qs ≠ 0
    · by_cases h30 : 30 < o.clock ls.tick - qs
      · have hbody : stepQueuedFollowup o e ls =
            stepTimeout o e
              { ls with tick := ls.tick + 1,
                        events := ls.events ++ [Event.send stillQueuedNotice],
                        sendIdx := ls.sendIdx + 1, queuedTimeStart := none } := by
          unfold stepQueuedFollowup emitL
          rw [hq]
          simp [hq0, h30, hsend ls.sendIdx]
        obtain ⟨ls', pre, tail, hstep, hev, h3, h4⟩ := stepTimeout_spec o e
          { ls with tick := ls.tick + 1,
                    events := ls.events ++ [Event.send stillQueuedNotice],
                    sendIdx := ls.sendIdx + 1, queuedTimeStart := none } hsend
        refine ⟨ls', Event.send stillQueuedNotice :: pre, tail, ?_, ?_, ?_, ?_⟩
        · rw [hbody]; exact hstep
        · rw [hev]; simp
        · intro hc
          obtain ⟨hm, hmem⟩ := h3 hc
          exact ⟨hm, by simp [hmem]⟩
        · intro hc; exact (h4 hc).1
      · have hbody : stepQueuedFollowup o e ls =
            stepTimeout o e { ls with tick := ls.tick + 1 } := by
          unfold stepQueuedFollowup
          rw [hq]
          simp [hq0, h30]
        obtain ⟨ls', pre, tail, hstep, hev, h3, h4⟩ := stepTimeout_spec o e
          { ls with tick := ls.tick + 1 } hsend
        refine ⟨ls', pre, tail, ?_, hev, h3, fun hc => (h4 hc).1⟩
        rw [hbody]; exact hstep
    · obtain ⟨ls', pre, tail, hstep, hev, h3, h4⟩ := stepTimeout_spec o e ls hsend
      refine ⟨ls', pre, tail, ?_, hev, h3, fun hc => (h4 hc).1⟩
      unfold stepQueuedFollowup
      rw [hq]
      simp only [hq0, ite_false]
      exact hstep

/-! ## The claims -/

/-- C5: the spec says the message history is capped at 20 entries after
every turn (`trim_message_history` and its doc string promise the same),
but no turn ever calls `trim_message_history`: a text turn on a handler
whose history already has 20 entries leaves 21 entries, while the trimming
the code defines (but never runs) would have left 20. -/
theorem c5_history_exceeds_cap :
    (streamResponse fullHistoryState 1 "hola" emptyStreamOracle).1.messageHistory.length = 21 ∧
    (trim_message_history
      (streamResponse fullHistoryState 1 "hola" emptyStreamOracle).1.messageHistory).length = 20 := by
  exact ⟨rfl, rfl⟩

/-- C6 counterexample: `prepare_text_for_html` is not idempotent.  Deleting
the heading marker `###␣` from `"#### ## a"` splices the remaining `#`
characters into a new `###␣` occurrence behind the scan position, which only
a second pass removes: the first pass yields `"### a"`, the second `"a"`. -/
theorem c6_counterexample :
    prepare_text_for_html "#### ## a" = "### a" ∧
    prepare_text_for_html (prepare_text_for_html "#### ## a") = "a" ∧
    prepare_text_for_html (prepare_text_for_html "#### ## a") ≠
      prepare_text_for_html "#### ## a" := by
  refine ⟨rfl, rfl, ?_⟩
  decide

/-- C6 amended: the tag-based transform is not idempotent in general
(stripping `###␣` can re-create a `###␣` redex, see the counterexample); a
second application is a no-op on first-pass outputs in which no heading
marker was re-formed, as on these representatives of the heading, bold,
spaced-bold, bullet, numbered-label, colon and escaped-tag rewrites. -/
theorem c6_amended_second_pass_fixed_on_examples :
    prepare_text_for_html (prepare_text_for_html "### Title") =
      prepare_text_for_html "### Title" ∧
    prepare_text_for_html (prepare_text_for_html "**bold** and **  spaced  **") =
      prepare_text_for_html "**bold** and **  spaced  **" ∧
    prepare_text_for_html (prepare_text_for_html "\n-  item one\n- item two") =
      prepare_text_for_html "\n-  item one\n- item two" ∧
    prepare_text_for_html (prepare_text_for_html "1.  **  Label  **  :") =
      prepare_text_for_html "1.  **  Label  **  :" ∧
    prepare_text_for_html (prepare_text_for_html "&lt;b&gt;x&lt;/b&gt; &lt;i&gt;y&lt;/i&gt;") =
      prepare_text_for_html "&lt;b&gt;x&lt;/b&gt; &lt;i&gt;y&lt;/i&gt;" ∧
    prepare_text_for_html (prepare_text_for_html "Hola  : •   punto\n - a") =
      prepare_text_for_html "Hola  : •   punto\n - a" ∧
    prepare_text_for_html
        (prepare_text_for_html "### Title\n**bold**\n- item\n1. **  L  ** : &lt;b&gt;x&lt;/b&gt;") =
      prepare_text_for_html "### Title\n**bold**\n- item\n1. **  L  ** : &lt;b&gt;x&lt;/b&gt;" := by
  exact ⟨rfl, rfl, rfl, rfl, rfl, rfl, rfl⟩

/-- C7 counterexample: a doubled asterisk marker can survive
`process_markdown`.  The collapse of leftover `**` is one left-to-right
`str.replace` pass, so a run of four asterisks halves into a doubled marker
instead of collapsing to a single one. -/
theorem c7_counterexample :
    process_markdown "****" = "**" ∧
    lcontains ['*', '*'] (process_markdown "****").data = true := by
  exact ⟨rfl, rfl⟩

/-- C7 amended: `process_markdown` maps `"### Title"` to `"*Title*"`,
`"**bold**"` to `"*bold*"`, `"1.  **  Label  **  :"` (and surrounding-space
variants) to `"1. *Label*:"`, and an isolated leftover doubled marker
collapses to a single marker; but the collapse is a single left-to-right
replacement pass, so runs of four asterisks leave a doubled marker
(`"****"` becomes `"**"`). -/
theorem c7_amended_rewrites :
    process_markdown "### Title" = "*Title*" ∧
    process_markdown "**bold**" = "*bold*" ∧
    process_markdown "1.  **  Label  **  :" = "1. *Label*:" ∧
    process_markdown "2. ** Intro **: ok" = "2. *Intro*: ok" ∧
    process_markdown "** x" = "* x" ∧
    process_markdown "a****b" = "a**b" := by
  exact ⟨rfl, rfl, rfl, rfl, rfl, rfl⟩

/-- C4: as long as the delivery callback does not itself raise, the image
poll loop exits only on a terminal status (`completed`, `failed`,
`cancelled`, `expired`); each iteration sleeps `min(5, 1 + elapsed/20)`
seconds before the next status poll (a failing poll just adds an extra
wait); and whenever the elapsed time has exceeded the current budget before
a terminal status, the iteration delivers the timeout notice and extends
the budget by 60 seconds instead of aborting — otherwise the budget is
unchanged. -/
theorem c4_poll_backoff_and_soft_timeout (o : ImageOracle) (ls : LoopSt)
    (fuel : Nat) (hsend : ∀ n, o.sendRaises n = false) :
    (∀ ls', pollLoop o fuel ls = .finished ls' →
      isTerminal ls'.runStatus = true) ∧
    (∃ ls' pre tail, pollStep o ls = .cont ls' ∧
      ls'.events = ls.events ++ pre ++
        [Event.sleep (min 5 (1 + (o.clock ls.tick - ls.startTime) / 20)),
         Event.providerCall "threads.runs.retrieve"] ++ tail ∧
      (ls.maxWait < o.clock ls.tick - ls.startTime →
        ls'.maxWait = ls.maxWait + 60 ∧ Event.send timeoutNotice ∈ pre) ∧
      (¬ ls.maxWait < o.clock ls.tick - ls.startTime →
        ls'.maxWait = ls.maxWait)) := by
  constructor
  · exact fun ls' h => pollLoop_finished_terminal o fuel ls ls' h
  · by_cases hst : ls.runStatus = "queued"
    · by_cases hqm : ls.queuedMsgSent
      · have hbody : pollStep o ls =
            stepQueuedFollowup o (o.clock ls.tick - ls.startTime)
              { ls with tick := ls.tick + 1 } := by
          unfold pollStep
          simp [hst, hqm]
        obtain ⟨ls', pre, tail, hstep, hev, h3, h4⟩ :=
          stepQueuedFollowup_spec o (o.clock ls.tick - ls.startTime)
            { ls with tick := ls.tick + 1 } hsend
        exact ⟨ls', pre, tail, by rw [hbody]; exact hstep, hev, h3, h4⟩
      · have hbody : pollStep o ls =
            stepQueuedFollowup o (o.clock ls.tick - ls.startTime)
              { ls with queuedMsgSent := true,
                        queuedTimeStart := some (o.clock (ls.tick + 1)),
                        tick := ls.tick + 1 + 1,
                        sendIdx := ls.sendIdx + 1,
                        events := ls.events ++ [Event.send queuedNotice] } := by
          unfold pollStep emitL
          simp [hst, hqm, hsend ls.sendIdx]
        obtain ⟨ls', pre, tail, hstep, hev, h3, h4⟩ :=
          stepQueuedFollowup_spec o (o.clock ls.tick - ls.startTime)
            { ls with queuedMsgSent := true,
                      queuedTimeStart := some (o.clock (ls.tick + 1)),
                      tick := ls.tick + 1 + 1,
                      sendIdx := ls.sendIdx + 1,
                      events := ls.events ++ [Event.send queuedNotice] } hsend
        refine ⟨ls', Event.send queuedNotice :: pre, tail,
          by rw [hbody]; exact hstep, ?_, ?_, ?_⟩
        · simp only [hev]
          simp
        · intro hc
          obtain ⟨hm, hmem⟩ := h3 hc
          exact ⟨hm, by simp [hmem]⟩
        · intro hc
          exact h4 hc
    · have hbody : pollStep o ls =
          stepTimeout o (o.clock ls.tick - ls.startTime)
            { ls with tick := ls.tick + 1 } := by
        unfold pollStep
        simp [hst]
      obtain ⟨ls', pre, tail, hstep, hev, h3, h4⟩ :=
        stepTimeout_spec o (o.clock ls.tick - ls.startTime)
          { ls with tick := ls.tick + 1 } hsend
      exact ⟨ls', pre, tail, by rw [hbody]; exact hstep, hev, h3,
        fun hc => (h4 hc).1⟩

/-- C4 witness: with the no-failure oracle the hypotheses hold concretely,
and the loop applied to an already terminal state finishes with a terminal
status. -/
theorem c4_poll_backoff_and_soft_timeout_witness :
    noFailImageOracle.sendRaises 0 = false ∧
    pollLoop noFailImageOracle 0 doneLoopState = .finished doneLoopState ∧
    isTerminal doneLoopState.runStatus = true := by
  refine ⟨rfl, rfl, ?_⟩
  exact (c4_poll_backoff_and_soft_timeout noFailImageOracle doneLoopState 0
    (fun _ => rfl)).1 doneLoopState rfl

/-- C1: while a thread's in-progress flag is set, a second text or image
turn for that thread returns with the state untouched (thread map, history
and the flag itself), an event trace consisting of exactly one delivery of
the busy notice and no provider call, for every oracle (i.e. regardless of
provider behaviour). -/
theorem c1_busy_short_circuit (st : HState) (g : Int) (tid message imsg : String)
    (o : TextOracle) (oi : ImageOracle) (fuel : Nat)
    (hth : alook g st.threads = some tid) (hne : tid ≠ "")
    (hbusy : getFlag st.inProgressRuns tid = true) :
    streamResponse st g message o = (st, [Event.send busyNotice], o.sendRaises 0) ∧
    streamImageResponse st g imsg oi fuel =
      some (st, [Event.send busyNotice], oi.sendRaises 0) := by
  constructor
  · simp [streamResponse, hth, hne, hbusy]
  · simp [streamImageResponse, hth, hne, hbusy]

/-- C1 witness: a concrete busy handler, discharging the hypotheses and
evaluating both turns. -/
theorem c1_busy_short_circuit_witness :
    alook 7 busyHandlerState.threads = some "t7" ∧
    getFlag busyHandlerState.inProgressRuns "t7" = true ∧
    streamResponse busyHandlerState 7 "hola" noFailTextOracle =
      (busyHandlerState, [Event.send busyNotice], false) ∧
    streamImageResponse busyHandlerState 7 "mira" noFailImageOracle 3 =
      some (busyHandlerState, [Event.send busyNotice], false) := by
  refine ⟨rfl, rfl, ?_, ?_⟩
  · exact (c1_busy_short_circuit busyHandlerState 7 "t7" "hola" "mira"
      noFailTextOracle noFailImageOracle 3 rfl (by decide) rfl).1
  · exact (c1_busy_short_circuit busyHandlerState 7 "t7" "hola" "mira"
      noFailTextOracle noFailImageOracle 3 rfl (by decide) rfl).2

/-- C3: an execution of `stream_response` or `stream_image_response` that
passes the busy check leaves the thread's in-progress flag `false` whenever
it returns, for every oracle — i.e. on normal completion and on every
provider, streaming, polling or delivery-callback failure (the `finally`
blocks of lines 142-144 and 347-349). -/
theorem c3_flag_cleared_on_return (st : HState) (g : Int) (tid message imsg : String)
    (o : TextOracle) (oi : ImageOracle) (fuel : Nat)
    (hth : alook g st.threads = some tid) (hne : tid ≠ "")
    (hidle : getFlag st.inProgressRuns tid = false) :
    getFlag (streamResponse st g message o).1.inProgressRuns tid = false ∧
    ∀ r, streamImageResponse st g imsg oi fuel = some r →
      getFlag r.1.inProgressRuns tid = false := by
  constructor
  · simp only [streamResponse, hth]
    by_cases h1 : o.createMessageRaises <;>
      by_cases h2 : o.streamOpenRaises <;>
        simp [hne, hidle, h1, h2, getFlag_setFlag_self]
  · intro r h
    simp only [streamImageResponse, hth] at h
    rw [if_neg hne] at h
    rw [hidle] at h
    simp only [Bool.false_eq_true, if_false] at h
    rcases hib : imageBody oi imsg fuel
        ⟨(setFlag tid true st).messageHistory, [], 0⟩ with _ | ⟨c, raised⟩ <;>
      rw [hib] at h
    · exact absurd h (by simp)
    · simp only [Option.some.injEq] at h
      rw [← h]
      simp [getFlag_setFlag_self]

/-- C3 witness: a concrete idle handler, a fully succeeding text oracle and
an image oracle whose run completes on the first poll; both hypotheses are
discharged and the text-turn conclusion is evaluated. -/
theorem c3_flag_cleared_on_return_witness :
    alook 7 idleHandlerState.threads = some "t7" ∧
    getFlag idleHandlerState.inProgressRuns "t7" = false ∧
    getFlag (streamResponse idleHandlerState 7 "hola" noFailTextOracle).1.inProgressRuns "t7" =
      false := by
  refine ⟨rfl, rfl, ?_⟩
  exact (c3_flag_cleared_on_return idleHandlerState 7 "t7" "hola" "mira"
    noFailTextOracle noFailImageOracle 3 rfl (by decide) rfl).1

/-- C10: when no thread is recorded for the group, both turns return
immediately: the state is unchanged and the event trace is empty — no
provider call and no callback invocation (not even a notice), for every
oracle. -/
theorem c10_missing_thread_silent (st : HState) (g : Int) (message imsg : String)
    (o : TextOracle) (oi : ImageOracle) (fuel : Nat)
    (hth : alook g st.threads = none) :
    streamResponse st g message o = (st, [], false) ∧
    streamImageResponse st g imsg oi fuel = some (st, [], false) := by
  constructor
  · simp [streamResponse, hth]
  · simp [streamImageResponse, hth]

/-- C10 witness: a handler with an empty thread map. -/
theorem c10_missing_thread_silent_witness :
    alook 3 emptyHandlerState.threads = none ∧
    streamResponse emptyHandlerState 3 "hola" noFailTextOracle =
      (emptyHandlerState, [], false) ∧
    streamImageResponse emptyHandlerState 3 "mira" noFailImageOracle 3 =
      some (emptyHandlerState, [], false) := by
  refine ⟨rfl, ?_, ?_⟩
  · exact (c10_missing_thread_silent emptyHandlerState 3 "hola" "mira"
      noFailTextOracle noFailImageOracle 3 rfl).1
  · exact (c10_missing_thread_silent emptyHandlerState 3 "hola" "mira"
      noFailTextOracle noFailImageOracle 3 rfl).2

/-- C2: `n + 1` invocations of `set_thread_id` with no hint for the same
key — serialised in some order by the key's lock, which is how concurrency
is modelled — perform exactly one provider thread-creation call, return the
same handle `t` to every caller, and leave the key mapped to `t`; the
re-check after acquiring the lock makes every later arrival observe the
first arrival's result. -/
theorem c2_concurrent_resolution_single_create (st : CMState) (g : Int)
    (creates : Nat → Option String) (n : Nat) (t : String)
    (habsent : alook g st.threads = none)
    (hfirst : creates 0 = some t) (hne : t ≠ "") :
    (runSetThread g creates (n + 1) st 0).2.2 = 1 ∧
    (runSetThread g creates (n + 1) st 0).2.1 = List.replicate (n + 1) (some t) ∧
    alook g (runSetThread g creates (n + 1) st 0).1.threads = some t := by
  have hfirstCall :
      set_thread_id st g none (creates 0) =
        (⟨aset g t st.threads, fanOut g t st.botThreads, st.userData,
          (addLock g st).threadLocks⟩, some t, true) := by
    unfold set_thread_id
    simp [addLock_threads, addLock_botThreads, addLock_userData, habsent,
      truthyS, hfirst, hne]
  have hlook :
      alook g (⟨aset g t st.threads, fanOut g t st.botThreads, st.userData,
        (addLock g st).threadLocks⟩ : CMState).threads = some t :=
    alook_aset_self g t _
  have hlock :
      g ∈ (⟨aset g t st.threads, fanOut g t st.botThreads, st.userData,
        (addLock g st).threadLocks⟩ : CMState).threadLocks :=
    addLock_mem g st
  unfold runSetThread
  rw [hfirstCall]
  have hrest := runSetThread_existing g creates t hne n 1 _ hlook hlock
  simp [hrest, hlook, List.replicate_succ]

/-- C2 witness: three serialised no-hint resolutions from an empty manager,
with a provider that would hand out a thread on every request. -/
theorem c2_concurrent_resolution_single_create_witness :
    alook 1 emptyCMState.threads = none ∧
    firstCreates 0 = some "thread_abc" ∧
    (runSetThread 1 firstCreates 3 emptyCMState 0).2.2 = 1 ∧
    (runSetThread 1 firstCreates 3 emptyCMState 0).2.1 =
      List.replicate 3 (some "thread_abc") ∧
    alook 1 (runSetThread 1 firstCreates 3 emptyCMState 0).1.threads =
      some "thread_abc" := by
  refine ⟨rfl, rfl, ?_, ?_, ?_⟩
  · exact (c2_concurrent_resolution_single_create emptyCMState 1 firstCreates 2
      "thread_abc" rfl rfl (by decide)).1
  · exact (c2_concurrent_resolution_single_create emptyCMState 1 firstCreates 2
      "thread_abc" rfl rfl (by decide)).2.1
  · exact (c2_concurrent_resolution_single_create emptyCMState 1 firstCreates 2
      "thread_abc" rfl rfl (by decide)).2.2

/-- C8 counterexample: `set_thread_id` with a non-empty hint does not record
or return the hint when the key already has a handle — the re-check inside
the lock wins.  On a manager mapping group 1 to `t1`, the call with hint
`t2` returns `t1` and leaves the map at `t1`. -/
theorem c8_counterexample :
    (set_thread_id c8State 1 (some "t2") none).2.1 = some "t1" ∧
    alook 1 (set_thread_id c8State 1 (some "t2") none).1.threads = some "t1" ∧
    (some "t1" : Option String) ≠ some "t2" := by
  exact ⟨rfl, rfl, by decide⟩

/-- C8 amended: for a key with no recorded handle, `set_thread_id` with a
non-empty hint records the hint, returns it and contacts no provider;
repeating the call with the same hint returns the same handle and changes
nothing further (when a handle already exists the call returns the existing
handle instead, see the counterexample).  `user_data` is untouched. -/
theorem c8_hint_recorded_when_absent (st : CMState) (g : Int) (h : String)
    (c1 c2 : Option String) (hne : h ≠ "") (habsent : alook g st.threads = none) :
    (set_thread_id st g (some h) c1).2.1 = some h ∧
    (set_thread_id st g (some h) c1).2.2 = false ∧
    alook g (set_thread_id st g (some h) c1).1.threads = some h ∧
    (set_thread_id st g (some h) c1).1.userData = st.userData ∧
    set_thread_id (set_thread_id st g (some h) c1).1 g (some h) c2 =
      ((set_thread_id st g (some h) c1).1, some h, false) := by
  have hcall :
      set_thread_id st g (some h) c1 =
        (⟨aset g h st.threads, fanOut g h st.botThreads, st.userData,
          (addLock g st).threadLocks⟩, some h, false) := by
    unfold set_thread_id
    simp [addLock_threads, addLock_botThreads, addLock_userData, habsent,
      truthyS, hne]
  rw [hcall]
  refine ⟨rfl, rfl, alook_aset_self g h _, rfl, ?_⟩
  exact set_thread_id_existing _ g (some h) c2 h (alook_aset_self g h _) hne
    (addLock_mem g st)

/-- C8 witness: recording hint `t9` for group 1 on an empty manager, twice.
-/
theorem c8_hint_recorded_when_absent_witness :
    ("t9" : String) ≠ "" ∧
    alook 1 emptyCMState.threads = none ∧
    (set_thread_id emptyCMState 1 (some "t9") none).2.1 = some "t9" ∧
    (set_thread_id emptyCMState 1 (some "t9") none).2.2 = false ∧
    alook 1 (set_thread_id emptyCMState 1 (some "t9") none).1.threads = some "t9" ∧
    set_thread_id (set_thread_id emptyCMState 1 (some "t9") none).1 1
        (some "t9") none =
      ((set_thread_id emptyCMState 1 (some "t9") none).1, some "t9", false) := by
  refine ⟨by decide, rfl, ?_, ?_, ?_, ?_⟩
  · exact (c8_hint_recorded_when_absent emptyCMState 1 "t9" none none
      (by decide) rfl).1
  · exact (c8_hint_recorded_when_absent emptyCMState 1 "t9" none none
      (by decide) rfl).2.1
  · exact (c8_hint_recorded_when_absent emptyCMState 1 "t9" none none
      (by decide) rfl).2.2.1
  · exact (c8_hint_recorded_when_absent emptyCMState 1 "t9" none none
      (by decide) rfl).2.2.2.2

/-- C9: `end_conversation` on a key with an active handle returns `true`,
removes the handle from the store and from every registered bot's handler
cache (a subsequent lookup is absent); on a key with no handle it returns
`false` and mutates nothing; in both cases `user_data` and the thread locks
are untouched. -/
theorem c9_end_conversation_effects (st : CMState) (g : Int) :
    ((alook g st.threads).isSome = true →
      (end_conversation st g).2 = true ∧
      alook g (end_conversation st g).1.threads = none ∧
      (∀ p ∈ (end_conversation st g).1.botThreads, alook g p.2 = none) ∧
      (end_conversation st g).1.userData = st.userData ∧
      (end_conversation st g).1.threadLocks = st.threadLocks) ∧
    (alook g st.threads = none → end_conversation st g = (st, false)) := by
  constructor
  · intro hsome
    rcases hth : alook g st.threads with _ | t
    · rw [hth] at hsome; simp at hsome
    · unfold end_conversation
      rw [hth]
      refine ⟨rfl, alook_adel_self g _, ?_, rfl, rfl⟩
      intro p hp
      simp only [List.mem_map] at hp
      obtain ⟨q, _, hq⟩ := hp
      rw [← hq]
      exact alook_adel_self g _
  · intro hnone
    unfold end_conversation
    rw [hnone]

/-- C9 witness: ending the active conversation of group 1 on a manager with
two bots, stored user data and an existing lock; and ending the absent
conversation of group 5. -/
theorem c9_end_conversation_effects_witness :
    (alook 1 boundCMState.threads).isSome = true ∧
    alook 5 boundCMState.threads = none ∧
    (end_conversation boundCMState 1).2 = true ∧
    alook 1 (end_conversation boundCMState 1).1.threads = none ∧
    (end_conversation boundCMState 1).1.userData = boundCMState.userData ∧
    (end_conversation boundCMState 1).1.threadLocks = boundCMState.threadLocks ∧
    end_conversation boundCMState 5 = (boundCMState, false) := by
  refine ⟨rfl, rfl, ?_, ?_, ?_, ?_, ?_⟩
  · exact ((c9_end_conversation_effects boundCMState 1).1 rfl).1
  · exact ((c9_end_conversation_effects boundCMState 1).1 rfl).2.1
  · exact ((c9_end_conversation_effects boundCMState 1).1 rfl).2.2.2.1
  · exact ((c9_end_conversation_effects boundCMState 1).1 rfl).2.2.2.2
  · exact (c9_end_conversation_effects boundCMState 5).2 rfl

end TgAssistant

